import Mathlib

/-!
Verification of the MQSim result-summarizer (`parse_result.py`).

This file gives a shallow embedding of the Python module `parse_result.py`
and proves/refutes the frozen claims about it.  Conventions of the embedding:

* Python `None` / strings / ints / floats that can appear as values of the
  produced record dictionaries are modelled by the inductive `PyVal`;
  Python floats are modelled as exact rationals (`ℚ`).
* Python dictionaries are modelled as association lists (`Dict`) with
  Python's assignment semantics (`dset`): assigning to an existing key
  replaces its value in place, assigning to a fresh key appends it.
* The parsed XML document (the result of `ET.parse(...).getroot()`) is
  modelled by the structure `Doc`; each field corresponds to one of the
  fixed XPath lookups the extractors perform (`root.find(...)` becomes an
  `Option`, `root.findall(...)` a list).  Element attributes are string
  maps, exactly as in ElementTree.
* `safe_int` / `safe_float` mirror the Python helpers; the numeric-literal
  grammar covers optional sign, digits and a decimal point (the exotic
  forms Python's `int()` / `float()` also accept — exponents, `inf`,
  `nan`, embedded underscores — are not modelled; no claim depends on
  them).  Character classes (`isDigit`, whitespace, lowercasing) are the
  ASCII ones; the experiment file names in scope are ASCII.
-/

namespace MQSim

/-- A Python value that can appear in one of the produced records. -/
inductive PyVal where
  | none
  | str (s : String)
  | int (n : Int)
  | rat (q : ℚ)
  deriving DecidableEq

/-- A Python dict, as an association list in insertion order. -/
abbrev Dict := List (String × PyVal)

/-- The list of keys of a dict, in order. -/
def keys (d : Dict) : List String := d.map Prod.fst

/-- Whether a key is present (Python `k in d`). -/
def containsKeyB (d : Dict) (k : String) : Bool := d.any (fun p => p.1 == k)

/-- Python `d[k] = v`: replace in place if the key exists, else append. -/
def dset (d : Dict) (k : String) (v : PyVal) : Dict :=
  if containsKeyB d k then d.map (fun p => if p.1 == k then (k, v) else p)
  else d ++ [(k, v)]

/-- Python `d.get(k)`: the value at the first matching key, if any. -/
def dget (d : Dict) (k : String) : Option PyVal :=
  (d.find? (fun p => p.1 == k)).map (fun p => p.2)

/-- Python `d.update(e)`, assigning `e`'s pairs into `d` in order. -/
def dictUpdate (d e : Dict) : Dict :=
  e.foldl (fun acc p => dset acc p.1 p.2) d

/-- Lift `Option Int` to a record value (Python assigns the optional directly). -/
def optIntVal : Option Int → PyVal
  | some n => .int n
  | Option.none => .none

/-- Lift `Option ℚ` to a record value. -/
def optFloatVal : Option ℚ → PyVal
  | some q => .rat q
  | Option.none => .none

/-! ### Character / string helpers (Python string primitives) -/

/-- Python whitespace for `str.strip`, ASCII part. -/
def isPySpace (c : Char) : Bool :=
  c == ' ' || c == '\t' || c == '\n' || c == '\r' || c == '\x0b' || c == '\x0c'

/-- `str.strip()` on the underlying character list. -/
def pyStrip (s : String) : String :=
  String.mk (((s.data.dropWhile isPySpace).reverse.dropWhile isPySpace).reverse)

/-- `s.lower()` (ASCII). -/
def pyLower (s : String) : String := String.mk (s.data.map Char.toLower)

/-- `s.startswith(pre)`. -/
def pyStartswith (s pre : String) : Bool := pre.data.isPrefixOf s.data

/-- `s[n:]` (drop the first `n` characters). -/
def pyDrop (s : String) (n : Nat) : String := String.mk (s.data.drop n)

/-- Occurrence of `pat` as a contiguous sublist of `l` (Python `pat in s`). -/
def listSub (pat : List Char) : List Char → Bool
  | [] => pat.isEmpty
  | c :: t => pat.isPrefixOf (c :: t) || listSub pat t

/-- Python `pat in s` (contiguous substring test). -/
def strContains (s pat : String) : Bool := listSub pat.data s.data

/-- Split a character list on a separator character; Python `str.split(sep)`
semantics (`"".split("_") = [""]`, empty groups kept). -/
def splitOnCharList (sep : Char) (l : List Char) : List (List Char) :=
  l.foldr
    (fun c acc =>
      match acc with
      | g :: gs => if c = sep then [] :: g :: gs else (c :: g) :: gs
      | [] => [[c]])
    [[]]

/-- Python `base.split("_")`. -/
def pySplitUnderscore (s : String) : List String :=
  (splitOnCharList '_' s.data).map String.mk

/-- `os.path.basename`: the part after the last path separator
(POSIX `/`; Windows separators are out of scope). -/
def pyBasename (s : String) : String :=
  String.mk ((splitOnCharList '/' s.data).getLastD [])

/-- `if base.lower().endswith(".xml"): base = base[:-4]`. -/
def stripXmlExt (s : String) : String :=
  if ".xml".data.isSuffixOf (pyLower s).data then
    String.mk (s.data.take (s.data.length - 4))
  else s

/-! ### `safe_int` / `safe_float` -/

/-- Decimal digits to their value. -/
def digitsToNat (l : List Char) : Nat :=
  l.foldl (fun a c => 10 * a + (c.toNat - 48)) 0

/-- Equation-friendly view of a string's character list. -/
theorem data_mk (l : List Char) : (String.mk l).data = l := rfl

/-- Python `int(text)` for an optionally signed run of decimal digits. -/
def pyIntParse (s : String) : Option Int :=
  match s.data with
  | [] => Option.none
  | c :: t =>
    if c = '-' then
      (if t ≠ [] ∧ t.all Char.isDigit then some (-(digitsToNat t : Int)) else Option.none)
    else if c = '+' then
      (if t ≠ [] ∧ t.all Char.isDigit then some ((digitsToNat t : Int)) else Option.none)
    else
      (if (c :: t).all Char.isDigit then some ((digitsToNat (c :: t) : Int)) else Option.none)

/-- The unsigned part of a decimal literal: `digits`, `digits.digits`,
`digits.` or `.digits`. -/
def decimalCore (l : List Char) : Option ℚ :=
  let ip := l.takeWhile Char.isDigit
  let rest := l.drop ip.length
  match rest with
  | [] => if ip.isEmpty then Option.none else some ((digitsToNat ip : ℚ))
  | '.' :: fr =>
    if fr.all Char.isDigit ∧ ¬(ip.isEmpty ∧ fr.isEmpty) then
      some ((digitsToNat ip : ℚ) + (digitsToNat fr : ℚ) / (10 : ℚ) ^ fr.length)
    else Option.none
  | _ => Option.none

/-- Python `float(text)` for plain signed decimal literals. -/
def pyFloatParse (s : String) : Option ℚ :=
  match s.data with
  | '-' :: t => (decimalCore t).map (fun q => -q)
  | '+' :: t => decimalCore t
  | t => decimalCore t

/-- `int(float_value)` truncates toward zero. -/
def ratTrunc (q : ℚ) : Int := if 0 ≤ q then ⌊q⌋ else ⌈q⌉

/-- `safe_int` from the source: `None`/empty → `None`; try `int(text)`,
then `int(float(text))`, else `None`. -/
def safe_int (t : Option String) : Option Int :=
  match t with
  | Option.none => Option.none
  | some s0 =>
    let s := pyStrip s0
    if s.data.isEmpty then Option.none
    else
      match pyIntParse s with
      | some n => some n
      | Option.none =>
        match pyFloatParse s with
        | some q => some (ratTrunc q)
        | Option.none => Option.none

/-- `safe_float` from the source: `None`/empty → `None`; try `float(text)`. -/
def safe_float (t : Option String) : Option ℚ :=
  match t with
  | Option.none => Option.none
  | some s0 =>
    let s := pyStrip s0
    if s.data.isEmpty then Option.none else pyFloatParse s

/-! ### Experiment name parser (`parse_experiment_name`) -/

/-- `re.match(pre ++ r"(\d+)", s)`: `s` must start with `pre` followed by at
least one digit; the captured group is the maximal digit run. -/
def reMatchDigits (pre s : String) : Option String :=
  if pyStartswith s pre then
    let ds := (s.data.drop pre.data.length).takeWhile Char.isDigit
    if ds.isEmpty then Option.none else some (String.mk ds)
  else Option.none

/-- The initial `info` dict of `parse_experiment_name`. -/
def initInfo (base : String) : Dict :=
  [("exp_name", PyVal.str base),
   ("category", PyVal.none),
   ("cache_size", PyVal.none),
   ("channels", PyVal.none),
   ("chips_per_channel", PyVal.none),
   ("io_queue_depth", PyVal.none),
   ("block_size", PyVal.none),
   ("access_pattern", PyVal.none),
   ("tpcc_variant", PyVal.none)]

/-- The branch on `kind = parts[1]`; `rest = parts[2:]`, so Python's
`parts[i]` is `rest[i-2]` and `len(parts) >= k` is `rest.length ≥ k - 2`. -/
def applyKind (info0 : Dict) (kind : String) (rest : List String) : Dict :=
  if pyStartswith kind "cache" then
    -- wl_cache128MB_4kb_randread_scenario_1
    let info := dset info0 "category" (PyVal.str "cache")
    let info := dset info "cache_size" (PyVal.str (pyDrop kind 5))
    if 2 ≤ rest.length then
      dset (dset info "block_size" (PyVal.str (rest.getD 0 "")))
        "access_pattern" (PyVal.str (rest.getD 1 ""))
    else info
  else if pyStartswith kind "ch" then
    -- wl_ch4_chip2_4kb_randread_scenario_1
    let info := dset info0 "category" (PyVal.str "ch_chip")
    let info :=
      match reMatchDigits "ch" kind with
      | some ds => dset info "channels" (optIntVal (safe_int (some ds)))
      | Option.none => info
    let info :=
      match rest.head? with
      | some t =>
        if pyStartswith t "chip" then
          match reMatchDigits "chip" t with
          | some ds => dset info "chips_per_channel" (optIntVal (safe_int (some ds)))
          | Option.none => info
        else info
      | Option.none => info
    if 3 ≤ rest.length then
      dset (dset info "block_size" (PyVal.str (rest.getD 1 "")))
        "access_pattern" (PyVal.str (rest.getD 2 ""))
    else info
  else if pyStartswith kind "ioqd" then
    -- wl_ioqd32_4kb_randwrite_scenario_1
    let info := dset info0 "category" (PyVal.str "ioqd")
    let info :=
      match reMatchDigits "ioqd" kind with
      | some ds => dset info "io_queue_depth" (optIntVal (safe_int (some ds)))
      | Option.none => info
    if 2 ≤ rest.length then
      dset (dset info "block_size" (PyVal.str (rest.getD 0 "")))
        "access_pattern" (PyVal.str (rest.getD 1 ""))
    else info
  else if kind == "tpcc" then
    -- wl_tpcc_cache1GB_scenario_1, wl_tpcc_ch4_chip2_scenario_1, wl_tpcc_ioqd8_scenario_1
    let info := dset info0 "category" (PyVal.str "tpcc")
    let info := dset info "access_pattern" (PyVal.str "tpcc")
    match rest with
    | [] => info
    | sub :: rest2 =>
      if pyStartswith sub "cache" then
        dset (dset info "tpcc_variant" (PyVal.str "cache"))
          "cache_size" (PyVal.str (pyDrop sub 5))
      else if pyStartswith sub "ch" then
        let info := dset info "tpcc_variant" (PyVal.str "ch_chip")
        let info :=
          match reMatchDigits "ch" sub with
          | some ds => dset info "channels" (optIntVal (safe_int (some ds)))
          | Option.none => info
        match rest2.head? with
        | some t =>
          if pyStartswith t "chip" then
            match reMatchDigits "chip" t with
            | some ds => dset info "chips_per_channel" (optIntVal (safe_int (some ds)))
            | Option.none => info
          else info
        | Option.none => info
      else if pyStartswith sub "ioqd" then
        let info := dset info "tpcc_variant" (PyVal.str "ioqd")
        match reMatchDigits "ioqd" sub with
        | some ds => dset info "io_queue_depth" (optIntVal (safe_int (some ds)))
        | Option.none => info
      else info
  else info0

/-- `parse_experiment_name` from the source: strip the directory and the
`.xml` extension, split on `_`, and dispatch on the token after `wl`. -/
def parse_experiment_name (filename : String) : Dict :=
  let base := stripXmlExt (pyBasename filename)
  let parts := pySplitUnderscore base
  -- `if len(parts) < 2 or parts[0] != "wl": return info`
  if 2 ≤ parts.length ∧ parts.getD 0 "" = "wl" then
    applyKind (initInfo base) (parts.getD 1 "") (parts.drop 2)
  else initInfo base

/-! ### The parsed result document -/

/-- Attributes of one XML element (`elem.attrib`), in document order. -/
abbrev AttrMap := List (String × String)

/-- The parsed result document, restricted to the fixed lookups the
extractors perform:
* `hostFlow` models `root.find("Host/Host.IO_Flow")`, as the child
  elements' tag → text (`elem.text` may itself be `None`);
* `ftl` models `root.find("SSDDevice/SSDDevice.FTL")`, as its attributes;
* `tsu` models `root.find("SSDDevice/SSDDevice.TSU")`, as the attribute
  maps of its child elements (one per queue), in document order;
* `chips` models `root.findall("SSDDevice/SSDDevice.FlashChips")`, as the
  attribute maps of the chip elements (empty list when none). -/
structure Doc where
  hostFlow : Option (List (String × Option String))
  ftl : Option AttrMap
  tsu : Option (List AttrMap)
  chips : List AttrMap

/-- `get_child_text(parent, tag)`: the text of the first child with that
tag, else `None`. -/
def get_child_text (host : List (String × Option String)) (tag : String) : Option String :=
  match host.find? (fun p => p.1 == tag) with
  | some p => p.2
  | Option.none => Option.none

/-- `elem.attrib.get(k, None)`. -/
def attrGet (a : AttrMap) (k : String) : Option String :=
  (a.find? (fun p => p.1 == k)).map (fun p => p.2)

/-! ### Host extractor (`parse_host_metrics`) -/

/-- `parse_host_metrics` from the source; a missing `Host/Host.IO_Flow`
node yields the empty mapping. -/
def parse_host_metrics (root : Doc) : Dict :=
  match root.hostFlow with
  | Option.none => []
  | some host =>
    let rc := safe_int (get_child_text host "Request_Count")
    let rrc := safe_int (get_child_text host "Read_Request_Count")
    let wrc := safe_int (get_child_text host "Write_Request_Count")
    let iops := safe_float (get_child_text host "IOPS")
    let riops := safe_float (get_child_text host "Read_IOPS")
    let wiops := safe_float (get_child_text host "Write_IOPS")
    let bw_total := safe_float (get_child_text host "Bandwidth")
    let bw_read := safe_float (get_child_text host "Read_Bandwidth")
    let bw_write := safe_float (get_child_text host "Write_Bandwidth")
    let mib : ℚ := 1024 * 1024
    let dev_resp := safe_float (get_child_text host "Device_Response_Time")
    let e2e := safe_float (get_child_text host "End_to_End_Request_Delay")
    [("host_Request_Count", optIntVal rc),
     ("host_Read_Request_Count", optIntVal rrc),
     ("host_Write_Request_Count", optIntVal wrc),
     ("host_IOPS", optFloatVal iops),
     ("host_Read_IOPS", optFloatVal riops),
     ("host_Write_IOPS", optFloatVal wiops),
     ("host_BW_Bytes_per_s", optFloatVal bw_total),
     ("host_Read_BW_Bytes_per_s", optFloatVal bw_read),
     ("host_Write_BW_Bytes_per_s", optFloatVal bw_write)]
    ++ (match bw_total with
        | some b => [("host_BW_MiB_per_s", PyVal.rat (b / mib))]
        | Option.none => [])
    ++ (match bw_read with
        | some b => [("host_Read_BW_MiB_per_s", PyVal.rat (b / mib))]
        | Option.none => [])
    ++ (match bw_write with
        | some b => [("host_Write_BW_MiB_per_s", PyVal.rat (b / mib))]
        | Option.none => [])
    ++ [("host_Device_Response_Time", optFloatVal dev_resp),
        ("host_End_to_End_Request_Delay", optFloatVal e2e)]
    ++ (match e2e with
        | some d => [("host_E2E_Latency_ms_assuming_us", PyVal.rat (d / 1000))]
        | Option.none => [])

/-! ### FTL / CMT extractor (`parse_ftl_metrics`) -/

/-- The six flash-command accumulators of `parse_ftl_metrics`. -/
structure FtlCnt where
  total_read : Int
  total_prog : Int
  total_erase : Int
  mapping_read : Int
  mapping_prog : Int
  mapping_erase : Int

/-- One iteration of the `for name, val in ftl.attrib.items()` loop:
skip unparsable values, then bump every accumulator whose substring
condition holds (the conditions are independent `if`s in the source). -/
def ftlStep (acc : FtlCnt) (nv : String × String) : FtlCnt :=
  match safe_int (some nv.2) with
  | Option.none => acc
  | some cnt =>
    let acc := if strContains nv.1 "Read_CMD" && !strContains nv.1 "For_Mapping" then
        { acc with total_read := acc.total_read + cnt } else acc
    let acc := if strContains nv.1 "Program_CMD" && !strContains nv.1 "For_Mapping" then
        { acc with total_prog := acc.total_prog + cnt } else acc
    let acc := if strContains nv.1 "Erase_CMD" && !strContains nv.1 "For_Mapping" then
        { acc with total_erase := acc.total_erase + cnt } else acc
    let acc := if strContains nv.1 "Read_CMD_For_Mapping" then
        { acc with mapping_read := acc.mapping_read + cnt } else acc
    let acc := if strContains nv.1 "Program_CMD_For_Mapping" then
        { acc with mapping_prog := acc.mapping_prog + cnt } else acc
    let acc := if strContains nv.1 "Erase_CMD_For_Mapping" then
        { acc with mapping_erase := acc.mapping_erase + cnt } else acc
    acc

/-- The nested `ratio` helper of `parse_ftl_metrics`: `None` when either
operand is missing or the denominator is zero, else the exact quotient. -/
def ratioOf (num den : Option Int) : Option ℚ :=
  match num, den with
  | some n, some d => if d = 0 then Option.none else some ((n : ℚ) / (d : ℚ))
  | _, _ => Option.none

/-- `parse_ftl_metrics` from the source; a missing FTL node yields the
empty mapping. -/
def parse_ftl_metrics (root : Doc) : Dict :=
  match root.ftl with
  | Option.none => []
  | some attrs =>
    let c := attrs.foldl ftlStep ⟨0, 0, 0, 0, 0, 0⟩
    let total_queries := safe_int (attrGet attrs "Total_CMT_Queries")
    let hits := safe_int (attrGet attrs "CMT_Hits")
    let total_read_queries := safe_int (attrGet attrs "Total_CMT_Read_Queries")
    let read_hits := safe_int (attrGet attrs "CMT_Read_Hits")
    let total_write_queries := safe_int (attrGet attrs "Total_CMT_Write_Queries")
    let write_hits := safe_int (attrGet attrs "CMT_Write_Hits")
    [("ftl_Total_Flash_Read_CMD", PyVal.int c.total_read),
     ("ftl_Total_Flash_Program_CMD", PyVal.int c.total_prog),
     ("ftl_Total_Flash_Erase_CMD", PyVal.int c.total_erase),
     ("ftl_Mapping_Read_CMD", PyVal.int c.mapping_read),
     ("ftl_Mapping_Program_CMD", PyVal.int c.mapping_prog),
     ("ftl_Mapping_Erase_CMD", PyVal.int c.mapping_erase),
     ("ftl_Total_CMT_Queries", optIntVal total_queries),
     ("ftl_CMT_Hits", optIntVal hits),
     ("ftl_Total_CMT_Read_Queries", optIntVal total_read_queries),
     ("ftl_CMT_Read_Hits", optIntVal read_hits),
     ("ftl_Total_CMT_Write_Queries", optIntVal total_write_queries),
     ("ftl_CMT_Write_Hits", optIntVal write_hits),
     ("ftl_CMT_Hit_Rate", optFloatVal (ratioOf hits total_queries)),
     ("ftl_CMT_Read_Hit_Rate", optFloatVal (ratioOf read_hits total_read_queries)),
     ("ftl_CMT_Write_Hit_Rate", optFloatVal (ratioOf write_hits total_write_queries)),
     ("ftl_Total_GC_Executions", optIntVal (safe_int (attrGet attrs "Total_GC_Executions"))),
     ("ftl_Average_Page_Movement_For_GC",
       optFloatVal (safe_float (attrGet attrs "Average_Page_Movement_For_GC")))]

/-! ### TSU extractor (`parse_tsu_metrics`) -/

/-- Per-class running sums (the `stats[prefix]` dict of the source;
Python accumulates into floats, modelled as `ℚ`). -/
structure QStat where
  enq : ℚ
  deq : ℚ
  wait_time_sum : ℚ
  queue_len_sum : ℚ
  queue_entries : ℚ

/-- The all-zero initial `QStat`. -/
def QStat.zero : QStat := ⟨0, 0, 0, 0, 0⟩

/-- The class of a queue name: the part before the first `_` when the name
contains one (`name.split("_", 1)[0]`), else the whole name. -/
def tsuClassOf (name : String) : String :=
  if strContains name "_" then String.mk (name.data.takeWhile (fun c => !(c == '_')))
  else name

/-- The class of one queue element, read off its `Name` attribute. -/
def queueClass (q : AttrMap) : String := tsuClassOf ((attrGet q "Name").getD "")

/-- The enqueued count of one queue (`safe_int(...) or 0`). -/
def queueEnq (q : AttrMap) : Int :=
  (safe_int (attrGet q "No_Of_Transactions_Enqueued")).getD 0

/-- The dequeued count of one queue (`safe_int(...) or 0`). -/
def queueDeq (q : AttrMap) : Int :=
  (safe_int (attrGet q "No_Of_Transactions_Dequeued")).getD 0

/-- The average waiting time of one queue (`safe_float(...) or 0.0`). -/
def queueAvgWait (q : AttrMap) : ℚ :=
  (safe_float (attrGet q "Avg_Transaction_Waiting_Time")).getD 0

/-- The average queue length of one queue (`safe_float(...) or 0.0`). -/
def queueAvgLen (q : AttrMap) : ℚ :=
  (safe_float (attrGet q "Avg_Queue_Length")).getD 0

/-- Add one queue's numbers into a class's running sums (the body of the
`for q in tsu` loop after the prefix dispatch). -/
def qBump (s : QStat) (q : AttrMap) : QStat :=
  ⟨s.enq + (queueEnq q : ℚ),
   s.deq + (queueDeq q : ℚ),
   s.wait_time_sum + queueAvgWait q * (queueEnq q : ℚ),
   s.queue_len_sum + queueAvgLen q,
   s.queue_entries + 1⟩

/-- The three per-class accumulators (`stats` keyed by `User`/`GC`/`Mapping`). -/
structure TsuAcc where
  user : QStat
  gc : QStat
  mapping : QStat

/-- One iteration of the queue loop: dispatch the queue to its class, or
skip it when the class is not one of `User`/`GC`/`Mapping`. -/
def tsuStep (acc : TsuAcc) (q : AttrMap) : TsuAcc :=
  if queueClass q == "User" then { acc with user := qBump acc.user q }
  else if queueClass q == "GC" then { acc with gc := qBump acc.gc q }
  else if queueClass q == "Mapping" then { acc with mapping := qBump acc.mapping q }
  else acc

/-- The four output fields for one class (the body of the
`for prefix in prefixes` conversion loop; the f-string keys are expanded
at the call sites). -/
def tsuOut (k1 k2 k3 k4 : String) (s : QStat) : Dict :=
  [(k1, if 0 < s.enq then PyVal.rat s.enq else PyVal.none),
   (k2, if 0 < s.deq then PyVal.rat s.deq else PyVal.none),
   (k3, if 0 < s.enq then PyVal.rat (s.wait_time_sum / s.enq) else PyVal.none),
   (k4, if 0 < s.queue_entries then PyVal.rat (s.queue_len_sum / s.queue_entries)
        else PyVal.none)]

/-- `parse_tsu_metrics` from the source; a missing TSU node yields the
empty mapping. -/
def parse_tsu_metrics (root : Doc) : Dict :=
  match root.tsu with
  | Option.none => []
  | some qs =>
    let st := qs.foldl tsuStep ⟨QStat.zero, QStat.zero, QStat.zero⟩
    tsuOut "tsu_User_Transactions_Enqueued" "tsu_User_Transactions_Dequeued"
      "tsu_User_Avg_Waiting_Time" "tsu_User_Avg_Queue_Length" st.user
    ++ tsuOut "tsu_GC_Transactions_Enqueued" "tsu_GC_Transactions_Dequeued"
      "tsu_GC_Avg_Waiting_Time" "tsu_GC_Avg_Queue_Length" st.gc
    ++ tsuOut "tsu_Mapping_Transactions_Enqueued" "tsu_Mapping_Transactions_Dequeued"
      "tsu_Mapping_Avg_Waiting_Time" "tsu_Mapping_Avg_Queue_Length" st.mapping

/-! ### Chip activity / energy extractor (`parse_chip_metrics_and_energy`) -/

/-- The `POWER_MODEL` weight table (Python float literals as rationals). -/
def POWER_MODEL (k : String) : ℚ :=
  if k = "exec" then 1
  else if k = "dataxfer" then 8 / 10
  else if k = "overlap" then 11 / 10
  else if k = "idle" then 3 / 10
  else 0

/-- One time-fraction attribute of a chip:
`safe_float(ch.attrib.get(key, "0")) or 0.0`. -/
def chipFrac (ch : AttrMap) (k : String) : ℚ :=
  (safe_float (some ((attrGet ch k).getD "0"))).getD 0

/-- The per-chip power index of the energy loop. -/
def chipPowerIndex (ch : AttrMap) : ℚ :=
  chipFrac ch "Fraction_of_Time_in_Execution" * POWER_MODEL "exec"
  + chipFrac ch "Fraction_of_Time_in_DataXfer" * POWER_MODEL "dataxfer"
  + chipFrac ch "Fraction_of_Time_in_DataXfer_and_Execution" * POWER_MODEL "overlap"
  + chipFrac ch "Fraction_of_Time_Idle" * POWER_MODEL "idle"

/-- `parse_chip_metrics_and_energy` from the source; no chip nodes yields
the empty mapping.  `host_reqs` is the host request count handed over by
`summarize_file`. -/
def parse_chip_metrics_and_energy (root : Doc) (host_reqs : Option Int) : Dict :=
  match root.chips with
  | [] => []
  | chips =>
    let n : ℚ := chips.length
    let sum_exec := (chips.map (fun ch => chipFrac ch "Fraction_of_Time_in_Execution")).sum
    let sum_data := (chips.map (fun ch => chipFrac ch "Fraction_of_Time_in_DataXfer")).sum
    let sum_overlap :=
      (chips.map (fun ch => chipFrac ch "Fraction_of_Time_in_DataXfer_and_Execution")).sum
    let sum_idle := (chips.map (fun ch => chipFrac ch "Fraction_of_Time_Idle")).sum
    let total_power_index := chips.foldl (fun acc ch => acc + chipPowerIndex ch) 0
    [("chip_Avg_Fraction_Exec", PyVal.rat (sum_exec / n)),
     ("chip_Avg_Fraction_DataXfer", PyVal.rat (sum_data / n)),
     ("chip_Avg_Fraction_Overlap", PyVal.rat (sum_overlap / n)),
     ("chip_Avg_Fraction_Idle", PyVal.rat (sum_idle / n)),
     ("energy_Total_Chip_Power_Index", PyVal.rat total_power_index),
     -- `if host_reqs and host_reqs > 0: ... else None` (0 and None are falsy)
     ("energy_Energy_per_IO_Index",
       match host_reqs with
       | some r => if 0 < r then PyVal.rat (total_power_index / (r : ℚ)) else PyVal.none
       | Option.none => PyVal.none)]

/-! ### Record assembler (`summarize_file`) and batch driver -/

/-- `host.get("host_Request_Count", None)` seen as an optional int (the
host mapping stores `safe_int` results). -/
def pyValToOptInt : Option PyVal → Option Int
  | some (.int n) => some n
  | _ => Option.none

/-- `summarize_file` from the source.  The outcome of `ET.parse(path)` is
passed in as `parsed` (`.error e` models the raised exception with message
`e`); on failure the error lands in `parse_error` and only the identity
fields are present. -/
def summarize_file (path : String) (parsed : Except String Doc) : Dict :=
  let row := dictUpdate [] (parse_experiment_name path)
  match parsed with
  | .error e => dset row "parse_error" (PyVal.str e)
  | .ok root =>
    let host := parse_host_metrics root
    let row := dictUpdate row host
    let host_req_cnt := pyValToOptInt (dget host "host_Request_Count")
    let row := dictUpdate row (parse_ftl_metrics root)
    let row := dictUpdate row (parse_tsu_metrics root)
    let row := dictUpdate row (parse_chip_metrics_and_energy root host_req_cnt)
    row

/-- The per-file loop of `main`: one record per discovered input file. -/
def summarize_batch (inputs : List (String × Except String Doc)) : List Dict :=
  inputs.map (fun p => summarize_file p.1 p.2)

/-! ### Basic lemmas about the string helpers -/

theorem listSub_iff (pat l : List Char) : listSub pat l = true ↔ pat <:+: l := by
  induction l with
  | nil =>
    simp only [listSub, List.isEmpty_iff]
    constructor
    · rintro rfl; exact List.nil_infix
    · intro h; exact List.eq_nil_of_infix_nil h
  | cons c t ih =>
    simp only [listSub, Bool.or_eq_true, List.isPrefixOf_iff_prefix, ih, List.infix_cons_iff]

theorem strContains_of_strContains_sub {s : String} (a b : String)
    (hab : listSub a.data b.data = true) (h : strContains s b = true) :
    strContains s a = true := by
  have h1 : a.data <:+: b.data := (listSub_iff _ _).mp hab
  have h2 : b.data <:+: s.data := (listSub_iff _ _).mp h
  exact (listSub_iff _ _).mpr (h1.trans h2)

/-! ### `ratioOf` and the CMT hit rates (claim C4) -/

/-- C4: for each of the three CMT scopes the hit-rate field is
`hits ÷ queries` exactly when both counts are present and the query count
is non-zero, and null otherwise; in particular `queries = 0`, `hits = 0`
gives null (never `0.0`), and a division by zero is never produced. -/
theorem cmt_hit_rates_guard_division (d : Doc) (attrs : AttrMap)
    (h : d.ftl = some attrs) :
    (dget (parse_ftl_metrics d) "ftl_CMT_Hit_Rate"
        = some (optFloatVal (ratioOf (safe_int (attrGet attrs "CMT_Hits"))
            (safe_int (attrGet attrs "Total_CMT_Queries"))))
      ∧ dget (parse_ftl_metrics d) "ftl_CMT_Read_Hit_Rate"
        = some (optFloatVal (ratioOf (safe_int (attrGet attrs "CMT_Read_Hits"))
            (safe_int (attrGet attrs "Total_CMT_Read_Queries"))))
      ∧ dget (parse_ftl_metrics d) "ftl_CMT_Write_Hit_Rate"
        = some (optFloatVal (ratioOf (safe_int (attrGet attrs "CMT_Write_Hits"))
            (safe_int (attrGet attrs "Total_CMT_Write_Queries")))))
    ∧ (∀ n q : Int, ratioOf (some n) (some q)
        = if q = 0 then Option.none else some ((n : ℚ) / (q : ℚ)))
    ∧ (∀ q, ratioOf Option.none q = Option.none)
    ∧ (∀ n, ratioOf n Option.none = Option.none)
    ∧ ratioOf (some 0) (some 0) = Option.none := by
  refine ⟨?_, ?_, ?_, ?_, ?_⟩
  · unfold parse_ftl_metrics
    rw [h]
    exact ⟨rfl, rfl, rfl⟩
  · intro n q; rfl
  · intro q; rfl
  · intro n; cases n <;> rfl
  · rfl

/-- Witness for C4 at a concrete document with `CMT_Hits = 0` and
`Total_CMT_Queries = 0`: the hit rate is null, not `0.0`. -/
theorem cmt_hit_rates_guard_division_witness :
    dget (parse_ftl_metrics ⟨Option.none,
        some [("CMT_Hits", "0"), ("Total_CMT_Queries", "0")], Option.none, []⟩)
        "ftl_CMT_Hit_Rate" = some PyVal.none := by
  have h := cmt_hit_rates_guard_division
    ⟨Option.none, some [("CMT_Hits", "0"), ("Total_CMT_Queries", "0")], Option.none, []⟩
    [("CMT_Hits", "0"), ("Total_CMT_Queries", "0")] rfl
  rw [h.1.1]
  decide

/-! ### Flash-command counters (claim C2) -/

theorem strContains_false_of_sub {s : String} (a b : String)
    (hab : listSub a.data b.data = true) (h : strContains s a = false) :
    strContains s b = false := by
  cases hc : strContains s b with
  | false => rfl
  | true => rw [strContains_of_strContains_sub a b hab hc] at h; exact absurd h (by simp)

theorem ftlStep_read_eq (acc : FtlCnt) (nv : String × String)
    (h : strContains nv.1 "Read_CMD" = false) :
    (ftlStep acc nv).total_read = acc.total_read
      ∧ (ftlStep acc nv).mapping_read = acc.mapping_read := by
  have h4 : strContains nv.1 "Read_CMD_For_Mapping" = false :=
    strContains_false_of_sub "Read_CMD" "Read_CMD_For_Mapping" (by decide) h
  unfold ftlStep
  cases safe_int (some nv.2) with
  | none => exact ⟨rfl, rfl⟩
  | some cnt => simp only [h, h4, Bool.false_and, if_false]; split_ifs <;> simp_all

theorem ftlStep_prog_eq (acc : FtlCnt) (nv : String × String)
    (h : strContains nv.1 "Program_CMD" = false) :
    (ftlStep acc nv).total_prog = acc.total_prog
      ∧ (ftlStep acc nv).mapping_prog = acc.mapping_prog := by
  have h4 : strContains nv.1 "Program_CMD_For_Mapping" = false :=
    strContains_false_of_sub "Program_CMD" "Program_CMD_For_Mapping" (by decide) h
  unfold ftlStep
  cases safe_int (some nv.2) with
  | none => exact ⟨rfl, rfl⟩
  | some cnt => simp only [h, h4, Bool.false_and, if_false]; split_ifs <;> simp_all

theorem ftlStep_erase_eq (acc : FtlCnt) (nv : String × String)
    (h : strContains nv.1 "Erase_CMD" = false) :
    (ftlStep acc nv).total_erase = acc.total_erase
      ∧ (ftlStep acc nv).mapping_erase = acc.mapping_erase := by
  have h4 : strContains nv.1 "Erase_CMD_For_Mapping" = false :=
    strContains_false_of_sub "Erase_CMD" "Erase_CMD_For_Mapping" (by decide) h
  unfold ftlStep
  cases safe_int (some nv.2) with
  | none => exact ⟨rfl, rfl⟩
  | some cnt => simp only [h, h4, Bool.false_and, if_false]; split_ifs <;> simp_all

theorem ftl_fold_read_eq (attrs : AttrMap)
    (h : ∀ p ∈ attrs, strContains p.1 "Read_CMD" = false) :
    ∀ acc : FtlCnt, (attrs.foldl ftlStep acc).total_read = acc.total_read
      ∧ (attrs.foldl ftlStep acc).mapping_read = acc.mapping_read := by
  induction attrs with
  | nil => intro acc; exact ⟨rfl, rfl⟩
  | cons a t ih =>
    intro acc
    have ha := ftlStep_read_eq acc a (h a (by simp))
    have ht := ih (fun p hp => h p (by simp [hp])) (ftlStep acc a)
    simp only [List.foldl_cons]
    exact ⟨ht.1.trans ha.1, ht.2.trans ha.2⟩

theorem ftl_fold_prog_eq (attrs : AttrMap)
    (h : ∀ p ∈ attrs, strContains p.1 "Program_CMD" = false) :
    ∀ acc : FtlCnt, (attrs.foldl ftlStep acc).total_prog = acc.total_prog
      ∧ (attrs.foldl ftlStep acc).mapping_prog = acc.mapping_prog := by
  induction attrs with
  | nil => intro acc; exact ⟨rfl, rfl⟩
  | cons a t ih =>
    intro acc
    have ha := ftlStep_prog_eq acc a (h a (by simp))
    have ht := ih (fun p hp => h p (by simp [hp])) (ftlStep acc a)
    simp only [List.foldl_cons]
    exact ⟨ht.1.trans ha.1, ht.2.trans ha.2⟩

theorem ftl_fold_erase_eq (attrs : AttrMap)
    (h : ∀ p ∈ attrs, strContains p.1 "Erase_CMD" = false) :
    ∀ acc : FtlCnt, (attrs.foldl ftlStep acc).total_erase = acc.total_erase
      ∧ (attrs.foldl ftlStep acc).mapping_erase = acc.mapping_erase := by
  induction attrs with
  | nil => intro acc; exact ⟨rfl, rfl⟩
  | cons a t ih =>
    intro acc
    have ha := ftlStep_erase_eq acc a (h a (by simp))
    have ht := ih (fun p hp => h p (by simp [hp])) (ftlStep acc a)
    simp only [List.foldl_cons]
    exact ⟨ht.1.trans ha.1, ht.2.trans ha.2⟩

/-- C2 counterexample: on a document whose FTL node is present but has no
attributes at all (in particular none containing `Read_CMD`, `Program_CMD`
or `Erase_CMD`), every one of the six command-count fields is the integer
`0`, not null — refuting the claim that the fields are null/absent. -/
theorem ftl_counters_zero_counterexample :
    dget (parse_ftl_metrics ⟨Option.none, some [], Option.none, []⟩)
        "ftl_Total_Flash_Read_CMD" = some (PyVal.int 0)
    ∧ dget (parse_ftl_metrics ⟨Option.none, some [], Option.none, []⟩)
        "ftl_Total_Flash_Program_CMD" = some (PyVal.int 0)
    ∧ dget (parse_ftl_metrics ⟨Option.none, some [], Option.none, []⟩)
        "ftl_Total_Flash_Erase_CMD" = some (PyVal.int 0)
    ∧ dget (parse_ftl_metrics ⟨Option.none, some [], Option.none, []⟩)
        "ftl_Mapping_Read_CMD" = some (PyVal.int 0)
    ∧ dget (parse_ftl_metrics ⟨Option.none, some [], Option.none, []⟩)
        "ftl_Mapping_Program_CMD" = some (PyVal.int 0)
    ∧ dget (parse_ftl_metrics ⟨Option.none, some [], Option.none, []⟩)
        "ftl_Mapping_Erase_CMD" = some (PyVal.int 0)
    ∧ PyVal.int 0 ≠ PyVal.none := by
  decide

/-- C2 (amended): when the FTL node is present but carries no attribute
whose name contains `Read_CMD` (resp. `Program_CMD`, `Erase_CMD`), the
corresponding total and mapping command-count fields are the integer `0`
(the accumulators start at zero and are emitted unconditionally), not
null. -/
theorem ftl_cmd_counters_default_zero (d : Doc) (attrs : AttrMap)
    (h : d.ftl = some attrs) :
    ((∀ p ∈ attrs, strContains p.1 "Read_CMD" = false) →
      dget (parse_ftl_metrics d) "ftl_Total_Flash_Read_CMD" = some (PyVal.int 0)
      ∧ dget (parse_ftl_metrics d) "ftl_Mapping_Read_CMD" = some (PyVal.int 0))
    ∧ ((∀ p ∈ attrs, strContains p.1 "Program_CMD" = false) →
      dget (parse_ftl_metrics d) "ftl_Total_Flash_Program_CMD" = some (PyVal.int 0)
      ∧ dget (parse_ftl_metrics d) "ftl_Mapping_Program_CMD" = some (PyVal.int 0))
    ∧ ((∀ p ∈ attrs, strContains p.1 "Erase_CMD" = false) →
      dget (parse_ftl_metrics d) "ftl_Total_Flash_Erase_CMD" = some (PyVal.int 0)
      ∧ dget (parse_ftl_metrics d) "ftl_Mapping_Erase_CMD" = some (PyVal.int 0)) := by
  obtain ⟨hostFlow, ftl, tsu, chips⟩ := d
  simp only [Doc.ftl] at h
  subst h
  refine ⟨fun hh => ?_, fun hh => ?_, fun hh => ?_⟩
  · have hf := ftl_fold_read_eq attrs hh ⟨0, 0, 0, 0, 0, 0⟩
    exact ⟨by show some (PyVal.int (attrs.foldl ftlStep ⟨0, 0, 0, 0, 0, 0⟩).total_read) = _
              rw [hf.1],
      by show some (PyVal.int (attrs.foldl ftlStep ⟨0, 0, 0, 0, 0, 0⟩).mapping_read) = _
         rw [hf.2]⟩
  · have hf := ftl_fold_prog_eq attrs hh ⟨0, 0, 0, 0, 0, 0⟩
    exact ⟨by show some (PyVal.int (attrs.foldl ftlStep ⟨0, 0, 0, 0, 0, 0⟩).total_prog) = _
              rw [hf.1],
      by show some (PyVal.int (attrs.foldl ftlStep ⟨0, 0, 0, 0, 0, 0⟩).mapping_prog) = _
         rw [hf.2]⟩
  · have hf := ftl_fold_erase_eq attrs hh ⟨0, 0, 0, 0, 0, 0⟩
    exact ⟨by show some (PyVal.int (attrs.foldl ftlStep ⟨0, 0, 0, 0, 0, 0⟩).total_erase) = _
              rw [hf.1],
      by show some (PyVal.int (attrs.foldl ftlStep ⟨0, 0, 0, 0, 0, 0⟩).mapping_erase) = _
         rw [hf.2]⟩

/-- Witness for the amended C2 at a concrete FTL node with one unrelated
attribute: all six command-count fields equal `0`. -/
theorem ftl_cmd_counters_default_zero_witness :
    dget (parse_ftl_metrics ⟨Option.none, some [("Total_GC_Executions", "3")], Option.none, []⟩)
        "ftl_Total_Flash_Read_CMD" = some (PyVal.int 0)
    ∧ dget (parse_ftl_metrics ⟨Option.none, some [("Total_GC_Executions", "3")], Option.none, []⟩)
        "ftl_Mapping_Erase_CMD" = some (PyVal.int 0) := by
  have h := ftl_cmd_counters_default_zero
    ⟨Option.none, some [("Total_GC_Executions", "3")], Option.none, []⟩
    [("Total_GC_Executions", "3")] rfl
  exact ⟨(h.1 (by decide)).1, (h.2.2 (by decide)).2⟩

/-! ### Energy index (claim C6) -/

theorem foldl_add_map {α : Type} (f : α → ℚ) :
    ∀ (l : List α) (a : ℚ), l.foldl (fun acc x => acc + f x) a = a + (l.map f).sum := by
  intro l
  induction l with
  | nil => intro a; simp
  | cons x t ih => intro a; simp only [List.foldl_cons, List.map_cons, List.sum_cons, ih]; ring

/-- The per-chip power index written out with the documented weights
(execution 1.0, data transfer 0.8, overlap 1.1, idle 0.3), for comparison
with the implementation's `POWER_MODEL` lookups. -/
def specPowerIndex (ch : AttrMap) : ℚ :=
  chipFrac ch "Fraction_of_Time_in_Execution" * 1
  + chipFrac ch "Fraction_of_Time_in_DataXfer" * (8 / 10)
  + chipFrac ch "Fraction_of_Time_in_DataXfer_and_Execution" * (11 / 10)
  + chipFrac ch "Fraction_of_Time_Idle" * (3 / 10)

theorem chipPowerIndex_eq_spec : chipPowerIndex = specPowerIndex := by
  funext ch
  simp [chipPowerIndex, specPowerIndex, POWER_MODEL]

/-- C6: with at least one chip node, the total power index field is the
sum over chips of
`exec·1.0 + dataxfer·0.8 + overlap·1.1 + idle·0.3`, and the
energy-per-I/O field is that total divided by the host request count
exactly when the count is present and positive, and null when the count
is absent or not positive. -/
theorem energy_per_io_guarded (hostFlow : Option (List (String × Option String)))
    (ftl : Option AttrMap) (tsu : Option (List AttrMap))
    (chips : List AttrMap) (host_reqs : Option Int) (h : chips ≠ []) :
    dget (parse_chip_metrics_and_energy ⟨hostFlow, ftl, tsu, chips⟩ host_reqs)
        "energy_Total_Chip_Power_Index"
      = some (PyVal.rat ((chips.map specPowerIndex).sum))
    ∧ dget (parse_chip_metrics_and_energy ⟨hostFlow, ftl, tsu, chips⟩ host_reqs)
        "energy_Energy_per_IO_Index"
      = some (match host_reqs with
          | some r => if 0 < r then PyVal.rat ((chips.map specPowerIndex).sum / (r : ℚ))
                      else PyVal.none
          | Option.none => PyVal.none) := by
  obtain ⟨c, t, rfl⟩ : ∃ c t, chips = c :: t := by
    cases chips with
    | nil => exact absurd rfl h
    | cons c t => exact ⟨c, t, rfl⟩
  have hsum : ((c :: t).foldl (fun acc ch => acc + chipPowerIndex ch) 0)
      = ((c :: t).map specPowerIndex).sum := by
    rw [foldl_add_map chipPowerIndex, zero_add, chipPowerIndex_eq_spec]
  constructor
  · show some (PyVal.rat ((c :: t).foldl (fun acc ch => acc + chipPowerIndex ch) 0)) = _
    rw [hsum]
  · cases host_reqs with
    | none => rfl
    | some r =>
      show some (if 0 < r then
          PyVal.rat ((c :: t).foldl (fun acc ch => acc + chipPowerIndex ch) 0 / (r : ℚ))
        else PyVal.none) = _
      rw [hsum]

/-- Witness for C6 at one chip with execution fraction `50` and a host
request count of `100`: the total power index is `50` and the
energy-per-I/O index is `0.5`. -/
theorem energy_per_io_guarded_witness :
    dget (parse_chip_metrics_and_energy
        ⟨Option.none, Option.none, Option.none, [[("Fraction_of_Time_in_Execution", "50")]]⟩
        (some 100)) "energy_Energy_per_IO_Index" = some (PyVal.rat (1 / 2))
    ∧ dget (parse_chip_metrics_and_energy
        ⟨Option.none, Option.none, Option.none, [[("Fraction_of_Time_in_Execution", "50")]]⟩
        (some 100)) "energy_Total_Chip_Power_Index" = some (PyVal.rat 50) := by
  have h := energy_per_io_guarded Option.none Option.none Option.none
    [[("Fraction_of_Time_in_Execution", "50")]] (some 100) (by simp)
  have hS : ((([[("Fraction_of_Time_in_Execution", "50")]] : List AttrMap)).map
      specPowerIndex).sum = (50 : ℚ) := by
    have h1 : chipFrac [("Fraction_of_Time_in_Execution", "50")]
        "Fraction_of_Time_in_Execution" = ((50 : ℕ) : ℚ) := rfl
    have h2 : chipFrac [("Fraction_of_Time_in_Execution", "50")]
        "Fraction_of_Time_in_DataXfer" = ((0 : ℕ) : ℚ) := rfl
    have h3 : chipFrac [("Fraction_of_Time_in_Execution", "50")]
        "Fraction_of_Time_in_DataXfer_and_Execution" = ((0 : ℕ) : ℚ) := rfl
    have h4 : chipFrac [("Fraction_of_Time_in_Execution", "50")]
        "Fraction_of_Time_Idle" = ((0 : ℕ) : ℚ) := rfl
    simp only [List.map_cons, List.map_nil, List.sum_cons, List.sum_nil, specPowerIndex,
      h1, h2, h3, h4]
    push_cast
    ring
  rw [h.1, h.2, hS]
  norm_num

/-! ### TSU weighted waiting time (claim C5) -/

/-- Spec-side: total enqueued count of one queue class. -/
def tsuEnqSum (p : String) (qs : List AttrMap) : ℚ :=
  ((qs.filter (fun q => queueClass q == p)).map (fun q => ((queueEnq q : Int) : ℚ))).sum

/-- Spec-side: enqueue-weighted sum of per-queue average waits of one class. -/
def tsuWaitSum (p : String) (qs : List AttrMap) : ℚ :=
  ((qs.filter (fun q => queueClass q == p)).map
    (fun q => queueAvgWait q * ((queueEnq q : Int) : ℚ))).sum

theorem tsu_fold_stats : ∀ (qs : List AttrMap) (acc : TsuAcc),
    ((qs.foldl tsuStep acc).user.enq = acc.user.enq + tsuEnqSum "User" qs
      ∧ (qs.foldl tsuStep acc).user.wait_time_sum
        = acc.user.wait_time_sum + tsuWaitSum "User" qs)
    ∧ ((qs.foldl tsuStep acc).gc.enq = acc.gc.enq + tsuEnqSum "GC" qs
      ∧ (qs.foldl tsuStep acc).gc.wait_time_sum
        = acc.gc.wait_time_sum + tsuWaitSum "GC" qs)
    ∧ ((qs.foldl tsuStep acc).mapping.enq = acc.mapping.enq + tsuEnqSum "Mapping" qs
      ∧ (qs.foldl tsuStep acc).mapping.wait_time_sum
        = acc.mapping.wait_time_sum + tsuWaitSum "Mapping" qs) := by
  intro qs
  induction qs with
  | nil =>
    intro acc
    simp [tsuEnqSum, tsuWaitSum]
  | cons q t ih =>
    intro acc
    simp only [List.foldl_cons]
    by_cases h1 : (queueClass q == "User") = true
    · have e1 : queueClass q = "User" := by rwa [beq_iff_eq] at h1
      have h2 : (queueClass q == "GC") = false := by simp [e1]
      have h3 : (queueClass q == "Mapping") = false := by simp [e1]
      have hs : tsuStep acc q = { acc with user := qBump acc.user q } := by
        simp [tsuStep, h1]
      rw [hs]
      have hstep := ih { acc with user := qBump acc.user q }
      refine ⟨⟨?_, ?_⟩, ⟨?_, ?_⟩, ⟨?_, ?_⟩⟩ <;>
        (first
          | rw [hstep.1.1] | rw [hstep.1.2] | rw [hstep.2.1.1]
          | rw [hstep.2.1.2] | rw [hstep.2.2.1] | rw [hstep.2.2.2]) <;>
        simp only [tsuEnqSum, tsuWaitSum, List.filter_cons, h1, h2, h3, if_true, if_false,
          Bool.false_eq_true, List.map_cons, List.sum_cons, qBump] <;> try ring
    · by_cases h2 : (queueClass q == "GC") = true
      · have e2 : queueClass q = "GC" := by rwa [beq_iff_eq] at h2
        have h3 : (queueClass q == "Mapping") = false := by simp [e2]
        have hs : tsuStep acc q = { acc with gc := qBump acc.gc q } := by
          simp [tsuStep, h1, h2]
        rw [hs]
        have hstep := ih { acc with gc := qBump acc.gc q }
        refine ⟨⟨?_, ?_⟩, ⟨?_, ?_⟩, ⟨?_, ?_⟩⟩ <;>
          (first
            | rw [hstep.1.1] | rw [hstep.1.2] | rw [hstep.2.1.1]
            | rw [hstep.2.1.2] | rw [hstep.2.2.1] | rw [hstep.2.2.2]) <;>
          simp only [tsuEnqSum, tsuWaitSum, List.filter_cons, h1, h2, h3, if_true, if_false,
            Bool.false_eq_true, List.map_cons, List.sum_cons, qBump] <;> try ring
      · by_cases h3 : (queueClass q == "Mapping") = true
        · have hs : tsuStep acc q = { acc with mapping := qBump acc.mapping q } := by
            simp [tsuStep, h1, h2, h3]
          rw [hs]
          have hstep := ih { acc with mapping := qBump acc.mapping q }
          refine ⟨⟨?_, ?_⟩, ⟨?_, ?_⟩, ⟨?_, ?_⟩⟩ <;>
            (first
              | rw [hstep.1.1] | rw [hstep.1.2] | rw [hstep.2.1.1]
              | rw [hstep.2.1.2] | rw [hstep.2.2.1] | rw [hstep.2.2.2]) <;>
            simp only [tsuEnqSum, tsuWaitSum, List.filter_cons, h1, h2, h3, if_true, if_false,
              Bool.false_eq_true, List.map_cons, List.sum_cons, qBump] <;> try ring
        · have hs : tsuStep acc q = acc := by simp [tsuStep, h1, h2, h3]
          rw [hs]
          have hstep := ih acc
          refine ⟨⟨?_, ?_⟩, ⟨?_, ?_⟩, ⟨?_, ?_⟩⟩ <;>
            (first
              | rw [hstep.1.1] | rw [hstep.1.2] | rw [hstep.2.1.1]
              | rw [hstep.2.1.2] | rw [hstep.2.2.1] | rw [hstep.2.2.2]) <;>
            simp only [tsuEnqSum, tsuWaitSum, List.filter_cons, h1, h2, h3, if_true, if_false,
              Bool.false_eq_true, List.map_cons, List.sum_cons, qBump]

/-- C5: for each class `User`/`GC`/`Mapping`, the exposed average waiting
time is the enqueue-weighted average
`(Σ avg-wait × enqueued) / (Σ enqueued)` over that class's queues when the
enqueued sum is positive, and null otherwise. -/
theorem tsu_weighted_wait (d : Doc) (qs : List AttrMap) (h : d.tsu = some qs) :
    dget (parse_tsu_metrics d) "tsu_User_Avg_Waiting_Time"
      = some (if 0 < tsuEnqSum "User" qs then
          PyVal.rat (tsuWaitSum "User" qs / tsuEnqSum "User" qs) else PyVal.none)
    ∧ dget (parse_tsu_metrics d) "tsu_GC_Avg_Waiting_Time"
      = some (if 0 < tsuEnqSum "GC" qs then
          PyVal.rat (tsuWaitSum "GC" qs / tsuEnqSum "GC" qs) else PyVal.none)
    ∧ dget (parse_tsu_metrics d) "tsu_Mapping_Avg_Waiting_Time"
      = some (if 0 < tsuEnqSum "Mapping" qs then
          PyVal.rat (tsuWaitSum "Mapping" qs / tsuEnqSum "Mapping" qs) else PyVal.none) := by
  obtain ⟨hostFlow, ftl, tsu, chips⟩ := d
  simp only [Doc.tsu] at h
  subst h
  have hst := tsu_fold_stats qs ⟨QStat.zero, QStat.zero, QStat.zero⟩
  have hz : QStat.zero.enq = 0 := rfl
  have hz2 : QStat.zero.wait_time_sum = 0 := rfl
  simp only [hz, hz2, zero_add] at hst
  refine ⟨?_, ?_, ?_⟩
  · show some (if 0 < (qs.foldl tsuStep ⟨QStat.zero, QStat.zero, QStat.zero⟩).user.enq then
        PyVal.rat ((qs.foldl tsuStep ⟨QStat.zero, QStat.zero, QStat.zero⟩).user.wait_time_sum
          / (qs.foldl tsuStep ⟨QStat.zero, QStat.zero, QStat.zero⟩).user.enq)
        else PyVal.none) = _
    rw [hst.1.1, hst.1.2]
  · show some (if 0 < (qs.foldl tsuStep ⟨QStat.zero, QStat.zero, QStat.zero⟩).gc.enq then
        PyVal.rat ((qs.foldl tsuStep ⟨QStat.zero, QStat.zero, QStat.zero⟩).gc.wait_time_sum
          / (qs.foldl tsuStep ⟨QStat.zero, QStat.zero, QStat.zero⟩).gc.enq)
        else PyVal.none) = _
    rw [hst.2.1.1, hst.2.1.2]
  · show some (if 0 < (qs.foldl tsuStep ⟨QStat.zero, QStat.zero, QStat.zero⟩).mapping.enq then
        PyVal.rat ((qs.foldl tsuStep ⟨QStat.zero, QStat.zero, QStat.zero⟩).mapping.wait_time_sum
          / (qs.foldl tsuStep ⟨QStat.zero, QStat.zero, QStat.zero⟩).mapping.enq)
        else PyVal.none) = _
    rw [hst.2.2.1, hst.2.2.2]

/-- Witness for C5 at the documented example: queues `User_A`
(enqueued 10, average wait 5) and `User_B` (enqueued 30, average wait 1)
give `tsu_User_Avg_Waiting_Time = (10·5 + 30·1) / 40 = 2`, not the naive
mean `3`. -/
theorem tsu_weighted_wait_witness :
    dget (parse_tsu_metrics ⟨Option.none, Option.none,
        some [[("Name", "User_A"), ("No_Of_Transactions_Enqueued", "10"),
               ("Avg_Transaction_Waiting_Time", "5")],
              [("Name", "User_B"), ("No_Of_Transactions_Enqueued", "30"),
               ("Avg_Transaction_Waiting_Time", "1")]], []⟩)
      "tsu_User_Avg_Waiting_Time" = some (PyVal.rat 2) := by
  have h := tsu_weighted_wait ⟨Option.none, Option.none,
    some [[("Name", "User_A"), ("No_Of_Transactions_Enqueued", "10"),
           ("Avg_Transaction_Waiting_Time", "5")],
          [("Name", "User_B"), ("No_Of_Transactions_Enqueued", "30"),
           ("Avg_Transaction_Waiting_Time", "1")]], []⟩
    [[("Name", "User_A"), ("No_Of_Transactions_Enqueued", "10"),
      ("Avg_Transaction_Waiting_Time", "5")],
     [("Name", "User_B"), ("No_Of_Transactions_Enqueued", "30"),
      ("Avg_Transaction_Waiting_Time", "1")]] rfl
  have c1 : (queueClass [("Name", "User_A"), ("No_Of_Transactions_Enqueued", "10"),
      ("Avg_Transaction_Waiting_Time", "5")] == "User") = true := by decide
  have c2 : (queueClass [("Name", "User_B"), ("No_Of_Transactions_Enqueued", "30"),
      ("Avg_Transaction_Waiting_Time", "1")] == "User") = true := by decide
  have e1 : queueEnq [("Name", "User_A"), ("No_Of_Transactions_Enqueued", "10"),
      ("Avg_Transaction_Waiting_Time", "5")] = (10 : Int) := by decide
  have e2 : queueEnq [("Name", "User_B"), ("No_Of_Transactions_Enqueued", "30"),
      ("Avg_Transaction_Waiting_Time", "1")] = (30 : Int) := by decide
  have w1 : queueAvgWait [("Name", "User_A"), ("No_Of_Transactions_Enqueued", "10"),
      ("Avg_Transaction_Waiting_Time", "5")] = ((5 : ℕ) : ℚ) := rfl
  have w2 : queueAvgWait [("Name", "User_B"), ("No_Of_Transactions_Enqueued", "30"),
      ("Avg_Transaction_Waiting_Time", "1")] = ((1 : ℕ) : ℚ) := rfl
  have hE : tsuEnqSum "User"
      [[("Name", "User_A"), ("No_Of_Transactions_Enqueued", "10"),
        ("Avg_Transaction_Waiting_Time", "5")],
       [("Name", "User_B"), ("No_Of_Transactions_Enqueued", "30"),
        ("Avg_Transaction_Waiting_Time", "1")]] = (40 : ℚ) := by
    simp only [tsuEnqSum, List.filter_cons, c1, c2, if_true, List.filter_nil,
      List.map_cons, List.map_nil, List.sum_cons, List.sum_nil, e1, e2]
    norm_num
  have hW : tsuWaitSum "User"
      [[("Name", "User_A"), ("No_Of_Transactions_Enqueued", "10"),
        ("Avg_Transaction_Waiting_Time", "5")],
       [("Name", "User_B"), ("No_Of_Transactions_Enqueued", "30"),
        ("Avg_Transaction_Waiting_Time", "1")]] = (80 : ℚ) := by
    simp only [tsuWaitSum, List.filter_cons, c1, c2, if_true, List.filter_nil,
      List.map_cons, List.map_nil, List.sum_cons, List.sum_nil, e1, e2, w1, w2]
    norm_num
  rw [h.1, hE, hW]
  norm_num

/-! ### TSU queue-name classification (claim C10) -/

/-- C10: a queue whose `Name` has no underscore is classified by its whole
name — `User`, `GC` and `Mapping` are each counted toward their class —
while an underscored name contributes under the part before its first
underscore (`Mapping_X_Y` counts as `Mapping`); a no-underscore name
outside the three classes (`Userx`) is ignored, leaving the class fields
null. -/
theorem tsu_class_whole_name_when_no_underscore :
    dget (parse_tsu_metrics ⟨Option.none, Option.none,
        some [[("Name", "User"), ("No_Of_Transactions_Enqueued", "5")]], []⟩)
      "tsu_User_Transactions_Enqueued" = some (PyVal.rat 5)
    ∧ dget (parse_tsu_metrics ⟨Option.none, Option.none,
        some [[("Name", "GC"), ("No_Of_Transactions_Enqueued", "4")]], []⟩)
      "tsu_GC_Transactions_Enqueued" = some (PyVal.rat 4)
    ∧ dget (parse_tsu_metrics ⟨Option.none, Option.none,
        some [[("Name", "Mapping"), ("No_Of_Transactions_Enqueued", "3")]], []⟩)
      "tsu_Mapping_Transactions_Enqueued" = some (PyVal.rat 3)
    ∧ dget (parse_tsu_metrics ⟨Option.none, Option.none,
        some [[("Name", "Mapping_X_Y"), ("No_Of_Transactions_Enqueued", "7")]], []⟩)
      "tsu_Mapping_Transactions_Enqueued" = some (PyVal.rat 7)
    ∧ dget (parse_tsu_metrics ⟨Option.none, Option.none,
        some [[("Name", "Userx"), ("No_Of_Transactions_Enqueued", "9")]], []⟩)
      "tsu_User_Transactions_Enqueued" = some PyVal.none
    ∧ dget (parse_tsu_metrics ⟨Option.none, Option.none,
        some [[("Name", "Userx"), ("No_Of_Transactions_Enqueued", "9")]], []⟩)
      "tsu_GC_Transactions_Enqueued" = some PyVal.none
    ∧ dget (parse_tsu_metrics ⟨Option.none, Option.none,
        some [[("Name", "Userx"), ("No_Of_Transactions_Enqueued", "9")]], []⟩)
      "tsu_Mapping_Transactions_Enqueued" = some PyVal.none := by
  refine ⟨?_, ?_, ?_, ?_, ?_, ?_, ?_⟩
  · have e : queueEnq [("Name", "User"), ("No_Of_Transactions_Enqueued", "5")] = (5 : ℤ) := by
      decide
    show some (if 0 < (qBump QStat.zero
        [("Name", "User"), ("No_Of_Transactions_Enqueued", "5")]).enq then
        PyVal.rat ((qBump QStat.zero
          [("Name", "User"), ("No_Of_Transactions_Enqueued", "5")]).enq)
      else PyVal.none) = _
    simp only [qBump, QStat.zero, e]
    norm_num
  · have e : queueEnq [("Name", "GC"), ("No_Of_Transactions_Enqueued", "4")] = (4 : ℤ) := by
      decide
    show some (if 0 < (qBump QStat.zero
        [("Name", "GC"), ("No_Of_Transactions_Enqueued", "4")]).enq then
        PyVal.rat ((qBump QStat.zero
          [("Name", "GC"), ("No_Of_Transactions_Enqueued", "4")]).enq)
      else PyVal.none) = _
    simp only [qBump, QStat.zero, e]
    norm_num
  · have e : queueEnq [("Name", "Mapping"), ("No_Of_Transactions_Enqueued", "3")] = (3 : ℤ) := by
      decide
    show some (if 0 < (qBump QStat.zero
        [("Name", "Mapping"), ("No_Of_Transactions_Enqueued", "3")]).enq then
        PyVal.rat ((qBump QStat.zero
          [("Name", "Mapping"), ("No_Of_Transactions_Enqueued", "3")]).enq)
      else PyVal.none) = _
    simp only [qBump, QStat.zero, e]
    norm_num
  · have e : queueEnq [("Name", "Mapping_X_Y"), ("No_Of_Transactions_Enqueued", "7")]
        = (7 : ℤ) := by decide
    show some (if 0 < (qBump QStat.zero
        [("Name", "Mapping_X_Y"), ("No_Of_Transactions_Enqueued", "7")]).enq then
        PyVal.rat ((qBump QStat.zero
          [("Name", "Mapping_X_Y"), ("No_Of_Transactions_Enqueued", "7")]).enq)
      else PyVal.none) = _
    simp only [qBump, QStat.zero, e]
    norm_num
  · show some (if 0 < QStat.zero.enq then PyVal.rat QStat.zero.enq else PyVal.none) = _
    simp [QStat.zero]
  · show some (if 0 < QStat.zero.enq then PyVal.rat QStat.zero.enq else PyVal.none) = _
    simp [QStat.zero]
  · show some (if 0 < QStat.zero.enq then PyVal.rat QStat.zero.enq else PyVal.none) = _
    simp [QStat.zero]

/-! ### Identity-parser infrastructure (claims C1, C7, C8, C9) -/

/-- The nine identity keys, in insertion order. -/
def identityKeyList : List String :=
  ["exp_name", "category", "cache_size", "channels", "chips_per_channel",
   "io_queue_depth", "block_size", "access_pattern", "tpcc_variant"]

theorem applyKind_keys (base kind : String) (rest : List String) :
    keys (applyKind (initInfo base) kind rest) = identityKeyList := by
  unfold applyKind
  repeat' split
  all_goals rfl

theorem pen_keys (f : String) :
    keys (parse_experiment_name f) = identityKeyList := by
  simp only [parse_experiment_name]
  split
  · exact applyKind_keys _ _ _
  · rfl

/-- C9: for every input file name the identity parser returns a mapping
with exactly the nine identity keys, in order — no key missing, no key
added; unset axis fields are carried as `None` values under these keys. -/
theorem identity_record_has_exactly_nine_keys (f : String) :
    keys (parse_experiment_name f) = identityKeyList := pen_keys f

/-- Witness for C9 at a concrete unrecognized file name. -/
theorem identity_record_has_exactly_nine_keys_witness :
    keys (parse_experiment_name "random_file.xml") = identityKeyList :=
  identity_record_has_exactly_nine_keys "random_file.xml"

/-- Whether an identity field holds a value other than `None`. -/
def isSet (d : Dict) (k : String) : Bool :=
  match dget d k with
  | some PyVal.none => false
  | some _ => true
  | Option.none => false

/-- The cache axis group is populated. -/
def gCache (d : Dict) : Bool := isSet d "cache_size"

/-- The channel/chip axis group is populated. -/
def gCh (d : Dict) : Bool := isSet d "channels" || isSet d "chips_per_channel"

/-- The queue-depth axis group is populated. -/
def gIo (d : Dict) : Bool := isSet d "io_queue_depth"

/-- How many of the three axis groups are populated. -/
def axisGroupCount (d : Dict) : Nat :=
  (if gCache d then 1 else 0) + (if gCh d then 1 else 0) + (if gIo d then 1 else 0)

theorem axisCount_le_one_of (d : Dict)
    (h : (gCh d = false ∧ gIo d = false) ∨ (gCache d = false ∧ gIo d = false)
      ∨ (gCache d = false ∧ gCh d = false)) :
    axisGroupCount d ≤ 1 := by
  unfold axisGroupCount
  rcases h with ⟨h1, h2⟩ | ⟨h1, h2⟩ | ⟨h1, h2⟩ <;> simp [h1, h2] <;> split_ifs <;> norm_num

/-- C8 counterexample: `wl_tpcc.xml` is recognized (category `tpcc`) yet
none of the three axis groups is populated — all four axis fields are
`None` — refuting "for recognized categories exactly one group is
populated". -/
theorem recognized_category_no_axis_counterexample :
    dget (parse_experiment_name "wl_tpcc.xml") "category" = some (PyVal.str "tpcc")
    ∧ dget (parse_experiment_name "wl_tpcc.xml") "cache_size" = some PyVal.none
    ∧ dget (parse_experiment_name "wl_tpcc.xml") "channels" = some PyVal.none
    ∧ dget (parse_experiment_name "wl_tpcc.xml") "chips_per_channel" = some PyVal.none
    ∧ dget (parse_experiment_name "wl_tpcc.xml") "io_queue_depth" = some PyVal.none
    ∧ axisGroupCount (parse_experiment_name "wl_tpcc.xml") = 0 := by
  decide

set_option maxHeartbeats 4000000 in
/-- C8 (amended): every identity record populates at most one of the
three axis groups (cache, channels/chips, queue depth), and a populated
group is always the one its category selects: a populated cache group
forces the other groups' fields to `None` and category `cache` (or
`tpcc` with tpcc_variant `cache`); likewise the channel/chip group
forces category `ch_chip` (or `tpcc` with tpcc_variant `ch_chip`) and
the queue-depth group forces category `ioqd` (or `tpcc` with
tpcc_variant `ioqd`).  A recognized category may populate no group at
all when its numeric token fails to parse or no tpcc variant sub-token
is recognized. -/
theorem axis_group_matches_category (f : String) :
    axisGroupCount (parse_experiment_name f) ≤ 1
    ∧ (gCache (parse_experiment_name f) = true →
        dget (parse_experiment_name f) "channels" = some PyVal.none
        ∧ dget (parse_experiment_name f) "chips_per_channel" = some PyVal.none
        ∧ dget (parse_experiment_name f) "io_queue_depth" = some PyVal.none
        ∧ (dget (parse_experiment_name f) "category" = some (PyVal.str "cache")
          ∨ (dget (parse_experiment_name f) "category" = some (PyVal.str "tpcc")
            ∧ dget (parse_experiment_name f) "tpcc_variant" = some (PyVal.str "cache"))))
    ∧ (gCh (parse_experiment_name f) = true →
        dget (parse_experiment_name f) "cache_size" = some PyVal.none
        ∧ dget (parse_experiment_name f) "io_queue_depth" = some PyVal.none
        ∧ (dget (parse_experiment_name f) "category" = some (PyVal.str "ch_chip")
          ∨ (dget (parse_experiment_name f) "category" = some (PyVal.str "tpcc")
            ∧ dget (parse_experiment_name f) "tpcc_variant" = some (PyVal.str "ch_chip"))))
    ∧ (gIo (parse_experiment_name f) = true →
        dget (parse_experiment_name f) "cache_size" = some PyVal.none
        ∧ dget (parse_experiment_name f) "channels" = some PyVal.none
        ∧ dget (parse_experiment_name f) "chips_per_channel" = some PyVal.none
        ∧ (dget (parse_experiment_name f) "category" = some (PyVal.str "ioqd")
          ∨ (dget (parse_experiment_name f) "category" = some (PyVal.str "tpcc")
            ∧ dget (parse_experiment_name f) "tpcc_variant" = some (PyVal.str "ioqd")))) := by
  simp only [parse_experiment_name]
  split
  · unfold applyKind
    repeat' split
    all_goals refine ⟨?_, ?_, ?_, ?_⟩
    all_goals
      first
      | exact axisCount_le_one_of _ (Or.inl ⟨rfl, rfl⟩)
      | exact axisCount_le_one_of _ (Or.inr (Or.inl ⟨rfl, rfl⟩))
      | exact axisCount_le_one_of _ (Or.inr (Or.inr ⟨rfl, rfl⟩))
      | exact fun h => absurd h Bool.false_ne_true
      | exact fun _ => ⟨rfl, rfl, rfl, Or.inl rfl⟩
      | exact fun _ => ⟨rfl, rfl, rfl, Or.inr ⟨rfl, rfl⟩⟩
      | exact fun _ => ⟨rfl, rfl, Or.inl rfl⟩
      | exact fun _ => ⟨rfl, rfl, Or.inr ⟨rfl, rfl⟩⟩
  · exact ⟨axisCount_le_one_of _ (Or.inl ⟨rfl, rfl⟩),
      fun h => absurd h Bool.false_ne_true,
      fun h => absurd h Bool.false_ne_true,
      fun h => absurd h Bool.false_ne_true⟩

/-- Witness for the amended C8 at `wl_cache128MB_4kb_randread_scenario_1.xml`:
the cache group is populated, the other groups' fields are `None`, and
the category is `cache`. -/
theorem axis_group_matches_category_witness :
    axisGroupCount (parse_experiment_name "wl_cache128MB_4kb_randread_scenario_1.xml") ≤ 1
    ∧ (dget (parse_experiment_name "wl_cache128MB_4kb_randread_scenario_1.xml") "channels"
        = some PyVal.none
      ∧ dget (parse_experiment_name "wl_cache128MB_4kb_randread_scenario_1.xml")
          "chips_per_channel" = some PyVal.none
      ∧ dget (parse_experiment_name "wl_cache128MB_4kb_randread_scenario_1.xml")
          "io_queue_depth" = some PyVal.none
      ∧ (dget (parse_experiment_name "wl_cache128MB_4kb_randread_scenario_1.xml")
            "category" = some (PyVal.str "cache")
        ∨ (dget (parse_experiment_name "wl_cache128MB_4kb_randread_scenario_1.xml")
              "category" = some (PyVal.str "tpcc")
          ∧ dget (parse_experiment_name "wl_cache128MB_4kb_randread_scenario_1.xml")
              "tpcc_variant" = some (PyVal.str "cache")))) := by
  have h := axis_group_matches_category "wl_cache128MB_4kb_randread_scenario_1.xml"
  exact ⟨h.1, h.2.1 (by decide)⟩

/-- The filename shapes the parser's branch structure recognizes for the
token after `wl`. -/
def matchesShapeB (k : String) : Bool :=
  pyStartswith k "cache" || pyStartswith k "ch" || pyStartswith k "ioqd" || (k == "tpcc")

/-- C1: a file name whose first token (after stripping directory and
`.xml`) is not `wl`, or whose second token matches none of the
`cache`/`ch`/`ioqd`/`tpcc` shapes, yields a record with category unknown
(`None`) and every axis field `None`; the parser is a total function, so
no exception can be raised. -/
theorem unknown_name_yields_all_null (f : String)
    (h : (pySplitUnderscore (stripXmlExt (pyBasename f))).getD 0 "" ≠ "wl"
      ∨ matchesShapeB ((pySplitUnderscore (stripXmlExt (pyBasename f))).getD 1 "") = false) :
    dget (parse_experiment_name f) "category" = some PyVal.none
    ∧ dget (parse_experiment_name f) "cache_size" = some PyVal.none
    ∧ dget (parse_experiment_name f) "channels" = some PyVal.none
    ∧ dget (parse_experiment_name f) "chips_per_channel" = some PyVal.none
    ∧ dget (parse_experiment_name f) "io_queue_depth" = some PyVal.none
    ∧ dget (parse_experiment_name f) "block_size" = some PyVal.none
    ∧ dget (parse_experiment_name f) "access_pattern" = some PyVal.none
    ∧ dget (parse_experiment_name f) "tpcc_variant" = some PyVal.none := by
  simp only [parse_experiment_name]
  split
  · next hcond =>
    have hB : matchesShapeB ((pySplitUnderscore (stripXmlExt (pyBasename f))).getD 1 "")
        = false := h.resolve_left (fun hA => hA hcond.2)
    simp only [matchesShapeB, Bool.or_eq_false_iff] at hB
    obtain ⟨⟨⟨hc, hch⟩, hio⟩, ht⟩ := hB
    unfold applyKind
    simp only [hc, hch, hio, ht, Bool.false_eq_true, if_false]
    exact ⟨rfl, rfl, rfl, rfl, rfl, rfl, rfl, rfl⟩
  · exact ⟨rfl, rfl, rfl, rfl, rfl, rfl, rfl, rfl⟩

/-- Witness for C1 at `random_file.xml`. -/
theorem unknown_name_yields_all_null_witness :
    dget (parse_experiment_name "random_file.xml") "category" = some PyVal.none
    ∧ dget (parse_experiment_name "random_file.xml") "io_queue_depth" = some PyVal.none := by
  have h := unknown_name_yields_all_null "random_file.xml" (Or.inl (by decide))
  exact ⟨h.1, h.2.2.2.2.1⟩

/-! ### Digit-token lemmas and the `ch<N>` branch (claim C7) -/

theorem takeWhile_all {p : Char → Bool} :
    ∀ l : List Char, l.all p = true → l.takeWhile p = l := by
  intro l
  induction l with
  | nil => intro _; rfl
  | cons c t ih =>
    intro h
    simp only [List.all_cons, Bool.and_eq_true] at h
    simp [List.takeWhile_cons, h.1, ih h.2]

theorem isPySpace_of_isDigit (c : Char) (h : c.isDigit = true) : isPySpace c = false := by
  simp only [isPySpace, Bool.or_eq_false_iff, beq_eq_false_iff_ne, ne_eq]
  refine ⟨⟨⟨⟨⟨?_, ?_⟩, ?_⟩, ?_⟩, ?_⟩, ?_⟩ <;> rintro rfl <;> exact absurd h (by decide)

theorem dropWhile_no_space :
    ∀ l : List Char, (∀ c ∈ l, isPySpace c = false) → l.dropWhile isPySpace = l := by
  intro l
  cases l with
  | nil => intro _; rfl
  | cons c t => intro h; simp [List.dropWhile_cons, h c (by simp)]

theorem pyStrip_digits (ds : List Char) (h : ds.all Char.isDigit = true) :
    pyStrip (String.mk ds) = String.mk ds := by
  have hns : ∀ c ∈ ds, isPySpace c = false := by
    intro c hc
    exact isPySpace_of_isDigit c (by simp only [List.all_eq_true] at h; exact h c hc)
  unfold pyStrip
  rw [show (String.mk ds).data = ds from rfl, dropWhile_no_space ds hns,
    dropWhile_no_space ds.reverse (fun c hc => hns c (List.mem_reverse.mp hc)),
    List.reverse_reverse]

theorem pyIntParse_digits (ds : List Char) (hne : ds ≠ []) (h : ds.all Char.isDigit = true) :
    pyIntParse (String.mk ds) = some ((digitsToNat ds : ℤ)) := by
  obtain ⟨d, t, rfl⟩ : ∃ d t, ds = d :: t := by
    cases ds with
    | nil => exact absurd rfl hne
    | cons d t => exact ⟨d, t, rfl⟩
  have hd : d.isDigit = true := by
    simp only [List.all_cons, Bool.and_eq_true] at h
    exact h.1
  have hd1 : ¬(d = '-') := by rintro rfl; exact absurd hd (by decide)
  have hd2 : ¬(d = '+') := by rintro rfl; exact absurd hd (by decide)
  simp only [pyIntParse, data_mk]
  rw [if_neg hd1, if_neg hd2, if_pos h]

theorem safe_int_digits (ds : List Char) (hne : ds ≠ []) (h : ds.all Char.isDigit = true) :
    safe_int (some (String.mk ds)) = some ((digitsToNat ds : ℤ)) := by
  simp only [safe_int, pyStrip_digits ds h, data_mk]
  rw [if_neg (by simp [hne])]
  rw [pyIntParse_digits ds hne h]

/-- C7: when the token after `wl` is `ch<N>`, category is `ch_chip` and
channels is `N`; the next token sets chips-per-channel when it matches
`chip<M>`; and block size / access pattern come from the fixed positions
`parts[3]` / `parts[4]` — they are populated exactly when those two
positions exist, whether or not a `chip<M>` token occurred. -/
theorem ch_token_positional_fields (f kind : String) (ds : List Char) (rest : List String)
    (hp : pySplitUnderscore (stripXmlExt (pyBasename f)) = "wl" :: kind :: rest)
    (hk : kind = String.mk ('c' :: 'h' :: ds))
    (hne : ds ≠ []) (hdig : ds.all Char.isDigit = true) :
    dget (parse_experiment_name f) "category" = some (PyVal.str "ch_chip")
    ∧ dget (parse_experiment_name f) "channels" = some (PyVal.int (digitsToNat ds))
    ∧ dget (parse_experiment_name f) "chips_per_channel"
        = some (match rest.head? with
            | some t =>
              (match reMatchDigits "chip" t with
               | some m => optIntVal (safe_int (some m))
               | Option.none => PyVal.none)
            | Option.none => PyVal.none)
    ∧ dget (parse_experiment_name f) "block_size"
        = some (if 3 ≤ rest.length then PyVal.str (rest.getD 1 "") else PyVal.none)
    ∧ dget (parse_experiment_name f) "access_pattern"
        = some (if 3 ≤ rest.length then PyVal.str (rest.getD 2 "") else PyVal.none) := by
  subst hk
  simp only [parse_experiment_name]
  rw [hp]
  rw [if_pos (by exact ⟨by simp, rfl⟩)]
  simp only [List.getD_cons_succ, List.getD_cons_zero, List.drop_succ_cons, List.drop_zero]
  have hnc : pyStartswith (String.mk ('c' :: 'h' :: ds)) "cache" = false := by
    show (['c', 'a', 'c', 'h', 'e'].isPrefixOf ('c' :: 'h' :: ds)) = false
    simp [List.isPrefixOf]
  have hch : pyStartswith (String.mk ('c' :: 'h' :: ds)) "ch" = true := by
    show (['c', 'h'].isPrefixOf ('c' :: 'h' :: ds)) = true
    simp [List.isPrefixOf]
  have htw : ds.takeWhile Char.isDigit = ds := takeWhile_all ds hdig
  have hre : reMatchDigits "ch" (String.mk ('c' :: 'h' :: ds)) = some (String.mk ds) := by
    simp only [reMatchDigits, hch, if_true]
    rw [show ((String.mk ('c' :: 'h' :: ds)).data.drop ("ch".data.length)).takeWhile
        Char.isDigit = ds from htw]
    rw [if_neg (by simp [hne])]
  simp only [applyKind, hnc, hch, Bool.false_eq_true, if_false, if_true, hre,
    safe_int_digits ds hne hdig]
  cases rest with
  | nil =>
    norm_num
    exact ⟨rfl, rfl, rfl, rfl, rfl⟩
  | cons t0 rrest =>
    simp only [List.head?_cons]
    by_cases hst : pyStartswith t0 "chip" = true
    · rw [if_pos hst]
      cases hm : reMatchDigits "chip" t0 with
      | none =>
        by_cases hlen : 3 ≤ (t0 :: rrest).length
        · simp only [if_pos hlen]
          exact ⟨rfl, rfl, rfl, rfl, rfl⟩
        · simp only [if_neg hlen]
          exact ⟨rfl, rfl, rfl, rfl, rfl⟩
      | some m =>
        by_cases hlen : 3 ≤ (t0 :: rrest).length
        · simp only [if_pos hlen]
          exact ⟨rfl, rfl, rfl, rfl, rfl⟩
        · simp only [if_neg hlen]
          exact ⟨rfl, rfl, rfl, rfl, rfl⟩
    · rw [if_neg hst]
      have hm : reMatchDigits "chip" t0 = Option.none := by
        simp [reMatchDigits, hst]
      rw [hm]
      by_cases hlen : 3 ≤ (t0 :: rrest).length
      · simp only [if_pos hlen]
        exact ⟨rfl, rfl, rfl, rfl, rfl⟩
      · simp only [if_neg hlen]
        exact ⟨rfl, rfl, rfl, rfl, rfl⟩

/-- Witness for C7 at `wl_ch4_chip2_4kb_randread_scenario_1.xml`:
channels 4, chips-per-channel 2, block size `4kb`, access pattern
`randread`. -/
theorem ch_token_positional_fields_witness :
    dget (parse_experiment_name "wl_ch4_chip2_4kb_randread_scenario_1.xml") "channels"
      = some (PyVal.int 4)
    ∧ dget (parse_experiment_name "wl_ch4_chip2_4kb_randread_scenario_1.xml")
        "chips_per_channel" = some (PyVal.int 2)
    ∧ dget (parse_experiment_name "wl_ch4_chip2_4kb_randread_scenario_1.xml") "block_size"
      = some (PyVal.str "4kb")
    ∧ dget (parse_experiment_name "wl_ch4_chip2_4kb_randread_scenario_1.xml")
        "access_pattern" = some (PyVal.str "randread") := by
  have h := ch_token_positional_fields "wl_ch4_chip2_4kb_randread_scenario_1.xml"
    "ch4" ['4'] ["chip2", "4kb", "randread", "scenario", "1"]
    (by decide) rfl (by decide) (by decide)
  refine ⟨h.2.1.trans (by decide), h.2.2.1.trans (by decide),
    h.2.2.2.1.trans (by decide), h.2.2.2.2.trans (by decide)⟩

/-! ### Record assembly on parse failure (claim C3) -/

theorem dset_append (d : Dict) (k : String) (v : PyVal) (h : containsKeyB d k = false) :
    dset d k v = d ++ [(k, v)] := by
  simp [dset, h]

theorem keys_cons (k : String) (v : PyVal) (t : Dict) :
    keys ((k, v) :: t) = k :: keys t := rfl

theorem containsKeyB_append (d1 d2 : Dict) (k : String) :
    containsKeyB (d1 ++ d2) k = (containsKeyB d1 k || containsKeyB d2 k) := by
  simp [containsKeyB]

theorem dictUpdate_append :
    ∀ (e acc : Dict), (∀ k ∈ keys e, containsKeyB acc k = false) → (keys e).Nodup →
      dictUpdate acc e = acc ++ e := by
  intro e
  induction e with
  | nil => intro acc _ _; simp [dictUpdate]
  | cons p t ih =>
    intro acc h hnd
    obtain ⟨k, v⟩ := p
    show dictUpdate (dset acc k v) t = acc ++ (k, v) :: t
    rw [dset_append acc k v (h k (by simp [keys_cons]))]
    rw [keys_cons] at h hnd
    obtain ⟨hknot, hndt⟩ := List.nodup_cons.mp hnd
    have hcond : ∀ k2 ∈ keys t, containsKeyB (acc ++ [(k, v)]) k2 = false := by
      intro k2 hk2
      rw [containsKeyB_append]
      have h1 : containsKeyB acc k2 = false := h k2 (by simp [hk2])
      have hkk : ¬(k = k2) := fun hEq => hknot (hEq ▸ hk2)
      have h2 : containsKeyB [(k, v)] k2 = false := by simp [containsKeyB, hkk]
      rw [h1, h2]
      rfl
    rw [ih (acc ++ [(k, v)]) hcond hndt]
    simp

theorem containsKeyB_eq_any (d : Dict) (k : String) :
    containsKeyB d k = (keys d).any (fun x => x == k) := by
  induction d with
  | nil => rfl
  | cons a t ih =>
    simp only [containsKeyB, keys, List.map_cons, List.any_cons] at ih ⊢
    rw [ih]

theorem keys_append (d1 d2 : Dict) : keys (d1 ++ d2) = keys d1 ++ keys d2 := by
  simp [keys]

theorem dget_append (d1 d2 : Dict) (k : String) :
    dget (d1 ++ d2) k
      = (match dget d1 k with
         | some v => some v
         | Option.none => dget d2 k) := by
  induction d1 with
  | nil => simp [dget]
  | cons a t ih =>
    cases hpa : (a.1 == k) with
    | true => simp [dget, List.find?_cons, hpa]
    | false =>
      simp only [List.cons_append, dget, List.find?_cons, hpa] at ih ⊢
      exact ih

theorem dget_of_not_contains (d : Dict) (k : String) (h : containsKeyB d k = false) :
    dget d k = Option.none := by
  induction d with
  | nil => rfl
  | cons a t ih =>
    simp only [containsKeyB, List.any_cons, Bool.or_eq_false_iff] at h
    simp only [dget, List.find?_cons, h.1]
    exact ih (by simp [containsKeyB, h.2])

/-- C3: on a document-parse failure the assembled record carries the
failure message in `parse_error`, keeps exactly the identity fields (with
their parsed values) plus `parse_error`, contains no
`host_`/`ftl_`/`tsu_`/`chip_`/`energy_` metric field, and the batch
driver keeps the record for any batch containing the failing file
(batch size ≥ 1). -/
theorem parse_failure_record_identity_only (path e : String) :
    dget (summarize_file path (Except.error e)) "parse_error" = some (PyVal.str e)
    ∧ keys (summarize_file path (Except.error e)) = identityKeyList ++ ["parse_error"]
    ∧ (∀ k ∈ identityKeyList,
        dget (summarize_file path (Except.error e)) k = dget (parse_experiment_name path) k)
    ∧ (keys (summarize_file path (Except.error e))).all (fun k =>
        !(pyStartswith k "host_" || pyStartswith k "ftl_" || pyStartswith k "tsu_"
          || pyStartswith k "chip_" || pyStartswith k "energy_")) = true
    ∧ ∀ (inputs : List (String × Except String Doc)),
        (path, Except.error e) ∈ inputs →
          summarize_file path (Except.error e) ∈ summarize_batch inputs
          ∧ 1 ≤ (summarize_batch inputs).length := by
  have hku : dictUpdate [] (parse_experiment_name path) = parse_experiment_name path := by
    rw [dictUpdate_append (parse_experiment_name path) [] (fun k _ => rfl)
      (by rw [pen_keys]; decide)]
    rfl
  have hnc : containsKeyB (parse_experiment_name path) "parse_error" = false := by
    rw [containsKeyB_eq_any, pen_keys]
    decide
  have hrow : summarize_file path (Except.error e)
      = parse_experiment_name path ++ [("parse_error", PyVal.str e)] := by
    show dset (dictUpdate [] (parse_experiment_name path)) "parse_error" (PyVal.str e) = _
    rw [hku, dset_append _ _ _ hnc]
  refine ⟨?_, ?_, ?_, ?_, ?_⟩
  · rw [hrow, dget_append, dget_of_not_contains _ _ hnc]
    rfl
  · rw [hrow, keys_append, pen_keys]
    rfl
  · intro k hk
    rw [hrow, dget_append]
    have : ∃ pr ∈ parse_experiment_name path, (pr.1 == k) = true := by
      have hmem : k ∈ keys (parse_experiment_name path) := by rw [pen_keys]; exact hk
      obtain ⟨pr, hpr, hpr1⟩ := List.mem_map.mp hmem
      exact ⟨pr, hpr, by simp [hpr1]⟩
    obtain ⟨pr, hpr, hpr1⟩ := this
    cases hfind : dget (parse_experiment_name path) k with
    | some v => rfl
    | none =>
      exfalso
      simp only [dget, Option.map_eq_none'] at hfind
      exact (List.find?_eq_none.mp hfind pr hpr) hpr1
  · rw [hrow, keys_append, pen_keys,
      show keys [("parse_error", PyVal.str e)] = ["parse_error"] from rfl]
    decide
  · intro inputs hmem
    have hin : summarize_file path (Except.error e) ∈ summarize_batch inputs :=
      List.mem_map.mpr ⟨(path, Except.error e), hmem, rfl⟩
    exact ⟨hin, List.length_pos.mpr (List.ne_nil_of_mem hin)⟩

/-- Witness for C3 at a concrete failing file inside a batch of one. -/
theorem parse_failure_record_identity_only_witness :
    dget (summarize_file "wl_tpcc_bad.xml" (Except.error "syntax error")) "parse_error"
      = some (PyVal.str "syntax error")
    ∧ summarize_file "wl_tpcc_bad.xml" (Except.error "syntax error")
        ∈ summarize_batch [("wl_tpcc_bad.xml", Except.error "syntax error")]
    ∧ 1 ≤ (summarize_batch [("wl_tpcc_bad.xml", Except.error "syntax error")]).length := by
  have h := parse_failure_record_identity_only "wl_tpcc_bad.xml" "syntax error"
  have hb := h.2.2.2.2 [("wl_tpcc_bad.xml", Except.error "syntax error")] (by simp)
  exact ⟨h.1, hb.1, hb.2⟩

end MQSim
